import Mathlib

/-!
Shallow embedding of `src/TimeDilationSimulator.py` (class `TimeDilationSimulator`).

Patterns are lists of real numbers.  The external collaborator
`self.fw.cosmo.propagate_vibration` is modelled as an opaque parameter
`fw : Transform`; numpy reductions (`np.mean`, `np.abs`, `np.var`) are
modelled pointwise over the list, with real (not floating point) arithmetic
and Lean's total division (x / 0 = 0).  The global numpy random generator is
modelled as an explicit state threaded through the functions that touch it.
-/

namespace TimeDilation

/-- A pattern is a one-dimensional numeric array (`np.ndarray` of floats). -/
abbrev Pattern := List ℝ

/-- The collaborator `propagate_vibration(pattern, distance, position_ratio)`. -/
abbrev Transform := Pattern → ℝ → ℝ → Pattern

/-- `np.mean(p)`: sum divided by length (Lean division, so `[] ↦ 0`). -/
noncomputable def npMean (p : Pattern) : ℝ := p.sum / p.length

/-- `np.mean(np.abs(p))`. -/
noncomputable def npMeanAbs (p : Pattern) : ℝ := (p.map (fun x => |x|)).sum / p.length

/-- `np.var(p)`: population variance, mean of squared deviations from the mean. -/
noncomputable def npVar (p : Pattern) : ℝ :=
  ((p.map (fun x => (x - npMean p) ^ 2)).sum) / p.length

/-- One step's contribution to the accumulator:
`np.mean(np.abs(pattern)) + np.sqrt(np.var(pattern) + 1e-12)`
(lines 70-72 and 88-90 of the source). -/
noncomputable def stepStat (p : Pattern) : ℝ :=
  npMeanAbs p + Real.sqrt (npVar p + 1e-12)

/-- One call of the collaborator, as made by both zone loops. -/
def propStep (fw : Transform) (dist pr : ℝ) (p : Pattern) : Pattern := fw p dist pr

/-- A zone loop (lines 67-72; also the inner loop of lines 84-90): iterate
`n` times, each iteration replacing the pattern by the transform's output and
adding that step's statistic to the accumulator. -/
noncomputable def zoneLoop (fw : Transform) (dist pr : ℝ) : ℕ → Pattern × ℝ → Pattern × ℝ
  | 0, s => s
  | n + 1, s =>
      let p2 := propStep fw dist pr s.1
      zoneLoop fw dist pr n (p2, s.2 + stepStat p2)

/-- The dilated zone's nested loop (lines 83-90): `n` external steps, each
running the inner zone loop `d` times. -/
noncomputable def dilatedLoop (fw : Transform) (dist pr : ℝ) (d : ℕ) :
    ℕ → Pattern × ℝ → Pattern × ℝ
  | 0, s => s
  | n + 1, s => dilatedLoop fw dist pr d n (zoneLoop fw dist pr d s)

/-- The global numpy random-generator state (`np.random...`), abstracted. -/
abbrev RngState := ℕ

/-- Constructor parameters of `TimeDilationSimulator.__init__` (lines 33-35);
the integer parameters are Python ints, so they may be non-positive. -/
structure InitParams where
  scale_factor : ℝ := 4
  axion_mass : ℝ := 0.05
  pattern_size : ℕ := 200
  num_external_steps : ℤ := 20
  dilation_factor : ℤ := 10
  flat_position_ratio : ℝ := 0.5
  dilated_position_ratio : ℝ := 0.2
  seed : ℕ := 42

/-- The simulator's state after `__init__` (the fields set on `self`,
lines 42-47; the framework object is kept opaque, so its construction
parameters are simply carried along). -/
structure SimConfig where
  scale_factor : ℝ
  axion_mass : ℝ
  pattern_size : ℕ
  num_external_steps : ℤ
  dilation_factor : ℤ
  flat_pr : ℝ
  dilated_pr : ℝ

/-- A configuration-validation failure signal (the embedding of a Python
exception raised from `__init__`).  The source raises none. -/
inductive ConfigError
  | invalid

/-- `TimeDilationSimulator.__init__` (lines 33-48): store the parameters and
call `np.random.seed(seed)`, which replaces the global generator state with
one derived from the seed alone, discarding the prior state `g`.  The
constructor performs no validation, so it never returns `.error`. -/
def simInit (p : InitParams) (_g : RngState) : Except ConfigError (SimConfig × RngState) :=
  Except.ok
    ({ scale_factor := p.scale_factor
       axion_mass := p.axion_mass
       pattern_size := p.pattern_size
       num_external_steps := p.num_external_steps
       dilation_factor := p.dilation_factor
       flat_pr := p.flat_position_ratio
       dilated_pr := p.dilated_position_ratio },
     p.seed)

/-- `generate_initial_pattern` (lines 50-52):
`np.random.randn(self.pattern_size) * 0.3 + 0.5`, where `randn` is the
abstract standard-normal sampler drawing from, and advancing, the global
generator state. -/
def generate_initial_pattern (randn : RngState → ℕ → Pattern × RngState)
    (cfg : SimConfig) (g : RngState) : Pattern × RngState :=
  let d := randn g cfg.pattern_size
  (d.1.map (fun x => x * 0.3 + 0.5), d.2)

/-- The value of `performance_ratio_vs_flat`: a finite float or `float('inf')`. -/
inductive RatioVal
  | finite (x : ℝ)
  | posInf

/-- Per-zone entries of the results dict (lines 74-78 and 93-97, without the
ratio, which `run_simulation` computes from both zones). -/
structure ZoneResult where
  final_mean_abs : ℝ
  final_variance : ℝ
  accumulated_computation : ℝ

/-- The results dict returned by `run_simulation` (in the source the ratio is
stored inside the dilated zone's sub-dict). -/
structure SimulationResult where
  initial_mean_abs : ℝ
  initial_variance : ℝ
  flat : ZoneResult
  dilated : ZoneResult
  performance_ratio_vs_flat : RatioVal

/-- The flat zone's final (pattern, accumulator) state (lines 65-72):
`num_external_steps` calls at `distance=1.0`, `position_ratio=self.flat_pr`,
starting from a copy of the initial pattern and accumulator `0.0`.
`range(n)` of a non-positive Python int runs zero iterations, hence
`Int.toNat`. -/
noncomputable def flatState (fw : Transform) (cfg : SimConfig) (p0 : Pattern) : Pattern × ℝ :=
  zoneLoop fw 1 cfg.flat_pr cfg.num_external_steps.toNat (p0, 0)

/-- The dilated zone's final (pattern, accumulator) state (lines 81-90):
`num_external_steps` outer iterations of `dilation_factor` inner calls each,
at `distance=1.0/dilation_factor`, `position_ratio=self.dilated_pr`,
starting from a copy of the initial pattern and accumulator `0.0`. -/
noncomputable def dilatedState (fw : Transform) (cfg : SimConfig) (p0 : Pattern) : Pattern × ℝ :=
  dilatedLoop fw (1 / (cfg.dilation_factor : ℝ)) cfg.dilated_pr
    cfg.dilation_factor.toNat cfg.num_external_steps.toNat (p0, 0)

/-- `run_simulation` (lines 54-100) on an explicitly supplied initial
pattern: record the initial pattern's statistics, run both zones, and build
the results dict, with `ratio = dilated_accum / flat_accum if flat_accum > 0
else float('inf')` (line 92). -/
noncomputable def run_simulation (fw : Transform) (cfg : SimConfig) (p0 : Pattern) :
    SimulationResult :=
  { initial_mean_abs := npMeanAbs p0
    initial_variance := npVar p0
    flat := ⟨npMeanAbs (flatState fw cfg p0).1, npVar (flatState fw cfg p0).1,
      (flatState fw cfg p0).2⟩
    dilated := ⟨npMeanAbs (dilatedState fw cfg p0).1, npVar (dilatedState fw cfg p0).1,
      (dilatedState fw cfg p0).2⟩
    performance_ratio_vs_flat :=
      if 0 < (flatState fw cfg p0).2 then
        RatioVal.finite ((dilatedState fw cfg p0).2 / (flatState fw cfg p0).2)
      else RatioVal.posInf }

/-- Construct a simulator from params (with a caller-supplied prior global
generator state `g`), generate the initial pattern, and run: the
`TimeDilationSimulator(...)` + `run_simulation()` pipeline with a generated
initial pattern. -/
noncomputable def constructAndRun (randn : RngState → ℕ → Pattern × RngState)
    (fw : Transform) (p : InitParams) (g : RngState) : Option SimulationResult :=
  match simInit p g with
  | Except.ok s =>
      let gen := generate_initial_pattern randn s.1 s.2
      some (run_simulation fw s.1 gen.1)
  | Except.error _ => none

/-- The list of collaborator calls a plain zone loop makes, each recorded as
(input pattern, distance, position ratio): call `k` feeds the transform's
output at call `k-1` back in. -/
def callTrace (fw : Transform) (dist pr : ℝ) : ℕ → Pattern → List (Pattern × ℝ × ℝ)
  | 0, _ => []
  | n + 1, p => (p, dist, pr) :: callTrace fw dist pr n (propStep fw dist pr p)

/-- The list of collaborator calls the dilated zone's nested loop makes
(lines 83-87): `n` external steps of `d` inner calls each. -/
def dilatedCallTrace (fw : Transform) (dist pr : ℝ) (d : ℕ) :
    ℕ → Pattern → List (Pattern × ℝ × ℝ)
  | 0, _ => []
  | n + 1, p =>
      callTrace fw dist pr d p ++
        dilatedCallTrace fw dist pr d n ((propStep fw dist pr)^[d] p)

/-- The identity collaborator: `propagate` returns its input unchanged. -/
def idTransform : Transform := fun p _ _ => p

/-- A zero-output stub collaborator: every call returns the all-zero pattern
of the input's length. -/
def zeroStub : Transform := fun p _ _ => List.replicate p.length 0

/-- The simulator configuration obtained by `simInit` from `p`. -/
def cfgOf (p : InitParams) : SimConfig :=
  { scale_factor := p.scale_factor
    axion_mass := p.axion_mass
    pattern_size := p.pattern_size
    num_external_steps := p.num_external_steps
    dilation_factor := p.dilation_factor
    flat_pr := p.flat_position_ratio
    dilated_pr := p.dilated_position_ratio }

/-! ### Helper lemmas about the loops and the statistics -/

theorem sqrt_eps_eq : Real.sqrt 1e-12 = 1e-6 := by
  rw [show (1e-12 : ℝ) = (1e-6 : ℝ) ^ 2 by norm_num]
  exact Real.sqrt_sq (by norm_num)

theorem npMeanAbs_nonneg (p : Pattern) : 0 ≤ npMeanAbs p := by
  refine div_nonneg (List.sum_nonneg ?_) (by positivity)
  intro x hx
  rcases List.mem_map.1 hx with ⟨y, _, rfl⟩
  exact abs_nonneg y

theorem npVar_nonneg (p : Pattern) : 0 ≤ npVar p := by
  refine div_nonneg (List.sum_nonneg ?_) (by positivity)
  intro x hx
  rcases List.mem_map.1 hx with ⟨y, _, rfl⟩
  exact sq_nonneg _

theorem stepStat_lower (p : Pattern) : Real.sqrt 1e-12 ≤ stepStat p := by
  have h1 : Real.sqrt 1e-12 ≤ Real.sqrt (npVar p + 1e-12) :=
    Real.sqrt_le_sqrt (by linarith [npVar_nonneg p])
  have h2 := npMeanAbs_nonneg p
  unfold stepStat
  linarith

theorem stepStat_pos (p : Pattern) : 0 < stepStat p := by
  have := stepStat_lower p
  have : (0 : ℝ) < Real.sqrt 1e-12 := by rw [sqrt_eps_eq]; norm_num
  linarith [stepStat_lower p]

theorem stepStat_replicate_zero (L : ℕ) :
    stepStat (List.replicate L (0 : ℝ)) = Real.sqrt 1e-12 := by
  have habs : npMeanAbs (List.replicate L (0 : ℝ)) = 0 := by
    simp [npMeanAbs, List.map_replicate]
  have hmean : npMean (List.replicate L (0 : ℝ)) = 0 := by
    simp [npMean]
  have hvar : npVar (List.replicate L (0 : ℝ)) = 0 := by
    simp [npVar, hmean, List.map_replicate]
  rw [stepStat, habs, hvar, zero_add, zero_add]

theorem callTrace_eq_map (fw : Transform) (dist pr : ℝ) :
    ∀ (n : ℕ) (p : Pattern),
      callTrace fw dist pr n p =
        (List.range n).map (fun i => ((propStep fw dist pr)^[i] p, dist, pr))
  | 0, _ => by simp [callTrace]
  | n + 1, p => by
      rw [callTrace, callTrace_eq_map fw dist pr n, List.range_succ_eq_map]
      simp [List.map_map, Function.comp_def, Function.iterate_succ_apply]

theorem callTrace_add (fw : Transform) (dist pr : ℝ) :
    ∀ (a b : ℕ) (p : Pattern),
      callTrace fw dist pr (a + b) p =
        callTrace fw dist pr a p ++ callTrace fw dist pr b ((propStep fw dist pr)^[a] p)
  | 0, b, p => by simp [callTrace]
  | a + 1, b, p => by
      rw [Nat.succ_add, callTrace, callTrace, callTrace_add fw dist pr a b,
        Function.iterate_succ_apply]
      simp

theorem dilatedCallTrace_eq (fw : Transform) (dist pr : ℝ) (d : ℕ) :
    ∀ (n : ℕ) (p : Pattern),
      dilatedCallTrace fw dist pr d n p = callTrace fw dist pr (n * d) p
  | 0, _ => by simp [dilatedCallTrace, callTrace]
  | n + 1, p => by
      rw [dilatedCallTrace, dilatedCallTrace_eq fw dist pr d n,
        show (n + 1) * d = d + n * d by ring, callTrace_add]

theorem zoneLoop_fst (fw : Transform) (dist pr : ℝ) :
    ∀ (n : ℕ) (p : Pattern) (a : ℝ),
      (zoneLoop fw dist pr n (p, a)).1 = (propStep fw dist pr)^[n] p
  | 0, _, _ => rfl
  | n + 1, p, a => by
      rw [zoneLoop, zoneLoop_fst fw dist pr n, Function.iterate_succ_apply]

theorem zoneLoop_add (fw : Transform) (dist pr : ℝ) :
    ∀ (a b : ℕ) (s : Pattern × ℝ),
      zoneLoop fw dist pr (a + b) s = zoneLoop fw dist pr b (zoneLoop fw dist pr a s)
  | 0, b, s => by simp [zoneLoop]
  | a + 1, b, s => by
      rw [Nat.succ_add, zoneLoop, zoneLoop, zoneLoop_add fw dist pr a b]

theorem dilatedLoop_eq_zoneLoop (fw : Transform) (dist pr : ℝ) (d : ℕ) :
    ∀ (n : ℕ) (s : Pattern × ℝ),
      dilatedLoop fw dist pr d n s = zoneLoop fw dist pr (n * d) s
  | 0, s => by simp [dilatedLoop, zoneLoop]
  | n + 1, s => by
      rw [dilatedLoop, dilatedLoop_eq_zoneLoop fw dist pr d n,
        show (n + 1) * d = d + n * d by ring, zoneLoop_add]

theorem zoneLoop_id (dist pr : ℝ) :
    ∀ (n : ℕ) (p : Pattern) (a : ℝ),
      zoneLoop idTransform dist pr n (p, a) = (p, a + n * stepStat p)
  | 0, p, a => by simp [zoneLoop]
  | n + 1, p, a => by
      rw [zoneLoop]
      show zoneLoop idTransform dist pr n (p, a + stepStat p) = _
      rw [zoneLoop_id dist pr n]
      push_cast
      ring_nf

theorem zoneLoop_zeroStub_snd (dist pr : ℝ) :
    ∀ (n : ℕ) (p : Pattern) (a : ℝ),
      (zoneLoop zeroStub dist pr n (p, a)).2 = a + n * Real.sqrt 1e-12
  | 0, _, a => by simp [zoneLoop]
  | n + 1, p, a => by
      rw [zoneLoop]
      show (zoneLoop zeroStub dist pr n
        (List.replicate p.length 0, a + stepStat (List.replicate p.length 0))).2 = _
      rw [zoneLoop_zeroStub_snd dist pr n, stepStat_replicate_zero]
      push_cast
      ring_nf

theorem zoneLoop_snd_lower (fw : Transform) (dist pr : ℝ) :
    ∀ (n : ℕ) (p : Pattern) (a : ℝ),
      a + n * Real.sqrt 1e-12 ≤ (zoneLoop fw dist pr n (p, a)).2
  | 0, _, a => by simp [zoneLoop]
  | n + 1, p, a => by
      rw [zoneLoop]
      have h := zoneLoop_snd_lower fw dist pr n (propStep fw dist pr p)
        (a + stepStat (propStep fw dist pr p))
      have hs := stepStat_lower (propStep fw dist pr p)
      push_cast at h ⊢
      linarith

theorem iterate_length (fw : Transform) (dist pr : ℝ)
    (hfw : ∀ (p : Pattern) (d r : ℝ), (fw p d r).length = p.length) :
    ∀ (n : ℕ) (p : Pattern), ((propStep fw dist pr)^[n] p).length = p.length
  | 0, _ => rfl
  | n + 1, p => by
      rw [Function.iterate_succ_apply, iterate_length fw dist pr hfw n, propStep, hfw]

theorem run_flat_acc (fw : Transform) (cfg : SimConfig) (p0 : Pattern) :
    (run_simulation fw cfg p0).flat.accumulated_computation = (flatState fw cfg p0).2 := rfl

theorem run_dilated_acc (fw : Transform) (cfg : SimConfig) (p0 : Pattern) :
    (run_simulation fw cfg p0).dilated.accumulated_computation = (dilatedState fw cfg p0).2 :=
  rfl

theorem run_ratio_eq (fw : Transform) (cfg : SimConfig) (p0 : Pattern) :
    (run_simulation fw cfg p0).performance_ratio_vs_flat =
      if 0 < (flatState fw cfg p0).2 then
        RatioVal.finite ((dilatedState fw cfg p0).2 / (flatState fw cfg p0).2)
      else RatioVal.posInf := rfl

/-! ### Claim theorems -/

/-- Claim C1: the flat zone makes exactly `N = num_external_steps` collaborator
calls, each with `distance = 1.0` and `position_ratio = flat_pr`; the dilated
zone makes exactly `N × dilation_factor` calls, each with
`distance = 1.0 / dilation_factor` and `position_ratio = dilated_pr`; in both
zones, call `i`'s input is the `i`-th iterate of the transform on (a copy of)
the initial pattern — i.e. each call's input is the previous call's output —
and each zone's final pattern is the last call's output. -/
theorem flat_and_dilated_call_schedule (fw : Transform) (cfg : SimConfig) (p0 : Pattern) :
    (callTrace fw 1 cfg.flat_pr cfg.num_external_steps.toNat p0).length =
      cfg.num_external_steps.toNat ∧
    callTrace fw 1 cfg.flat_pr cfg.num_external_steps.toNat p0 =
      (List.range cfg.num_external_steps.toNat).map
        (fun i => ((propStep fw 1 cfg.flat_pr)^[i] p0, 1, cfg.flat_pr)) ∧
    (dilatedCallTrace fw (1 / (cfg.dilation_factor : ℝ)) cfg.dilated_pr
        cfg.dilation_factor.toNat cfg.num_external_steps.toNat p0).length =
      cfg.num_external_steps.toNat * cfg.dilation_factor.toNat ∧
    dilatedCallTrace fw (1 / (cfg.dilation_factor : ℝ)) cfg.dilated_pr
        cfg.dilation_factor.toNat cfg.num_external_steps.toNat p0 =
      (List.range (cfg.num_external_steps.toNat * cfg.dilation_factor.toNat)).map
        (fun i => ((propStep fw (1 / (cfg.dilation_factor : ℝ)) cfg.dilated_pr)^[i] p0,
          1 / (cfg.dilation_factor : ℝ), cfg.dilated_pr)) ∧
    (flatState fw cfg p0).1 =
      (propStep fw 1 cfg.flat_pr)^[cfg.num_external_steps.toNat] p0 ∧
    (dilatedState fw cfg p0).1 =
      (propStep fw (1 / (cfg.dilation_factor : ℝ))
        cfg.dilated_pr)^[cfg.num_external_steps.toNat * cfg.dilation_factor.toNat] p0 := by
  refine ⟨?_, callTrace_eq_map fw 1 cfg.flat_pr _ p0, ?_, ?_, ?_, ?_⟩
  · rw [callTrace_eq_map, List.length_map, List.length_range]
  · rw [dilatedCallTrace_eq, callTrace_eq_map, List.length_map, List.length_range]
  · rw [dilatedCallTrace_eq, callTrace_eq_map]
  · rw [flatState, zoneLoop_fst]
  · rw [dilatedState, dilatedLoop_eq_zoneLoop, zoneLoop_fst]

/-- Claim C7: two simulators constructed with identical seed and identical
parameters, with a deterministic collaborator, produce identical
`SimulationResult`s whatever the prior global random state was: `simInit`
applies the seed once at construction, before any pattern generation, so the
whole pipeline ignores the prior generator state. -/
theorem same_seed_same_result (randn : RngState → ℕ → Pattern × RngState)
    (fw : Transform) (p : InitParams) (g1 g2 : RngState) :
    constructAndRun randn fw p g1 = constructAndRun randn fw p g2 := rfl

/-- Claim C10: the reported initial statistics are `np.mean(np.abs(·))` and
`np.var(·)` of the pattern exactly as passed in, independent of the
collaborator and of the configuration; and each zone's result is unaffected
by the other zone's position-ratio parameter (the zones iterate on
independent copies, so neither influences the other or the caller's
pattern, which is a value in this embedding just as `initial_pattern.copy()`
isolates it in the source). -/
theorem run_initial_stats_pure (fw fw2 : Transform) (cfg cfg2 : SimConfig)
    (p0 : Pattern) (x : ℝ) :
    (run_simulation fw cfg p0).initial_mean_abs = npMeanAbs p0 ∧
    (run_simulation fw cfg p0).initial_variance = npVar p0 ∧
    (run_simulation fw cfg p0).initial_mean_abs =
      (run_simulation fw2 cfg2 p0).initial_mean_abs ∧
    (run_simulation fw cfg p0).initial_variance =
      (run_simulation fw2 cfg2 p0).initial_variance ∧
    (run_simulation fw { cfg with dilated_pr := x } p0).flat =
      (run_simulation fw cfg p0).flat ∧
    (run_simulation fw { cfg with flat_pr := x } p0).dilated =
      (run_simulation fw cfg p0).dilated :=
  ⟨rfl, rfl, rfl, rfl, rfl, rfl⟩

/-- Claim C3: if the flat accumulated computation is exactly zero, the
performance ratio is positive infinity; and for every run the ratio is a
well-defined value — positive infinity or a finite quotient — never a
division error. -/
theorem ratio_posInf_on_zero_flat (fw : Transform) (cfg : SimConfig) (p0 : Pattern)
    (h : (run_simulation fw cfg p0).flat.accumulated_computation = 0) :
    (run_simulation fw cfg p0).performance_ratio_vs_flat = RatioVal.posInf ∧
    ∀ (g : Transform) (c : SimConfig) (q : Pattern),
      (run_simulation g c q).performance_ratio_vs_flat = RatioVal.posInf ∨
        ∃ x : ℝ, (run_simulation g c q).performance_ratio_vs_flat = RatioVal.finite x := by
  constructor
  · rw [run_flat_acc] at h
    rw [run_ratio_eq, h]
    simp
  · intro g c q
    rw [run_ratio_eq]
    by_cases hc : 0 < (flatState g c q).2
    · exact Or.inr ⟨_, by rw [if_pos hc]⟩
    · exact Or.inl (by rw [if_neg hc])

/-- Concrete instance for C3: a run with zero external steps has flat
accumulated computation `0` and ratio positive infinity. -/
theorem ratio_posInf_on_zero_flat_witness :
    (run_simulation idTransform ⟨4, 0.05, 1, 0, 1, 0.5, 0.2⟩
      [0]).flat.accumulated_computation = 0 ∧
    (run_simulation idTransform ⟨4, 0.05, 1, 0, 1, 0.5, 0.2⟩
      [0]).performance_ratio_vs_flat = RatioVal.posInf :=
  ⟨rfl, (ratio_posInf_on_zero_flat idTransform ⟨4, 0.05, 1, 0, 1, 0.5, 0.2⟩ [0] rfl).1⟩

/-- Claim C2: with the identity collaborator, the flat accumulated
computation is `N` times the initial pattern's
`mean_abs + sqrt(variance + 1e-12)`, the dilated one is `N × dilation_factor`
times that same term, and the performance ratio is exactly
`dilation_factor`, for every initial pattern and all `N ≥ 1`, `d ≥ 1`. -/
theorem identity_collaborator_accumulation (cfg : SimConfig) (p0 : Pattern)
    (hN : 1 ≤ cfg.num_external_steps) (hd : 1 ≤ cfg.dilation_factor) :
    (run_simulation idTransform cfg p0).flat.accumulated_computation =
      (cfg.num_external_steps : ℝ) *
        (npMeanAbs p0 + Real.sqrt (npVar p0 + 1e-12)) ∧
    (run_simulation idTransform cfg p0).dilated.accumulated_computation =
      (cfg.num_external_steps : ℝ) * (cfg.dilation_factor : ℝ) *
        (npMeanAbs p0 + Real.sqrt (npVar p0 + 1e-12)) ∧
    (run_simulation idTransform cfg p0).performance_ratio_vs_flat =
      RatioVal.finite (cfg.dilation_factor : ℝ) := by
  have hN0 : (0 : ℤ) ≤ cfg.num_external_steps := by omega
  have hd0 : (0 : ℤ) ≤ cfg.dilation_factor := by omega
  have hNt : ((cfg.num_external_steps.toNat : ℕ) : ℝ) = (cfg.num_external_steps : ℝ) := by
    rw [← Int.cast_natCast (R := ℝ), Int.toNat_of_nonneg hN0]
  have hdt : ((cfg.dilation_factor.toNat : ℕ) : ℝ) = (cfg.dilation_factor : ℝ) := by
    rw [← Int.cast_natCast (R := ℝ), Int.toNat_of_nonneg hd0]
  have hflat : (flatState idTransform cfg p0).2 =
      (cfg.num_external_steps : ℝ) * stepStat p0 := by
    rw [flatState, zoneLoop_id]
    show 0 + (cfg.num_external_steps.toNat : ℝ) * stepStat p0 = _
    rw [zero_add, hNt]
  have hdil : (dilatedState idTransform cfg p0).2 =
      (cfg.num_external_steps : ℝ) * (cfg.dilation_factor : ℝ) * stepStat p0 := by
    rw [dilatedState, dilatedLoop_eq_zoneLoop, zoneLoop_id]
    show 0 + ((cfg.num_external_steps.toNat * cfg.dilation_factor.toNat : ℕ) : ℝ) *
      stepStat p0 = _
    rw [zero_add, Nat.cast_mul, hNt, hdt]
  have hNpos : (0 : ℝ) < (cfg.num_external_steps : ℝ) := by
    exact_mod_cast (by omega : (0 : ℤ) < cfg.num_external_steps)
  have hspos : 0 < stepStat p0 := stepStat_pos p0
  have hfpos : 0 < (flatState idTransform cfg p0).2 := by
    rw [hflat]; exact mul_pos hNpos hspos
  refine ⟨?_, ?_, ?_⟩
  · rw [run_flat_acc, hflat]
    simp only [stepStat]
  · rw [run_dilated_acc, hdil]
    simp only [stepStat]
  · rw [run_ratio_eq, if_pos hfpos, hflat, hdil]
    congr 1
    have hNne : (cfg.num_external_steps : ℝ) ≠ 0 := ne_of_gt hNpos
    have hsne : stepStat p0 ≠ 0 := ne_of_gt hspos
    field_simp
    ring

/-- Concrete instance for C2: `N = 1`, `d = 2`, pattern `[0]`. -/
theorem identity_collaborator_accumulation_witness :
    (1 ≤ (1 : ℤ)) ∧ (1 ≤ (2 : ℤ)) ∧
    (run_simulation idTransform ⟨4, 0.05, 1, 1, 2, 0.5, 0.2⟩
      [0]).performance_ratio_vs_flat = RatioVal.finite ((2 : ℤ) : ℝ) :=
  ⟨by norm_num, by norm_num,
    (identity_collaborator_accumulation ⟨4, 0.05, 1, 1, 2, 0.5, 0.2⟩ [0]
      (by norm_num) (by norm_num)).2.2⟩

/-- Claim C9 (implicit): every per-step statistic is at least
`sqrt(1e-12) = 1e-6 > 0`, so for `N ≥ 1` the flat accumulated computation is
at least `N × 1e-6 > 0`, the positive-infinity branch of line 92 is
unreachable, and the ratio is always the finite quotient
dilated accumulation / flat accumulation. -/
theorem step_stat_positive_ratio_finite (fw : Transform) (cfg : SimConfig) (p0 : Pattern)
    (hN : 1 ≤ cfg.num_external_steps) :
    (∀ q : Pattern, (1e-6 : ℝ) ≤ stepStat q) ∧
    (cfg.num_external_steps.toNat : ℝ) * 1e-6 ≤
      (run_simulation fw cfg p0).flat.accumulated_computation ∧
    0 < (run_simulation fw cfg p0).flat.accumulated_computation ∧
    (run_simulation fw cfg p0).performance_ratio_vs_flat =
      RatioVal.finite ((run_simulation fw cfg p0).dilated.accumulated_computation /
        (run_simulation fw cfg p0).flat.accumulated_computation) := by
  have hstep : ∀ q : Pattern, (1e-6 : ℝ) ≤ stepStat q := fun q => by
    have h := stepStat_lower q
    rwa [sqrt_eps_eq] at h
  have hlow := zoneLoop_snd_lower fw 1 cfg.flat_pr cfg.num_external_steps.toNat p0 0
  rw [sqrt_eps_eq, zero_add] at hlow
  have hNt : (1 : ℝ) ≤ (cfg.num_external_steps.toNat : ℝ) := by
    have h : 1 ≤ cfg.num_external_steps.toNat := by omega
    exact_mod_cast h
  have hacc : (cfg.num_external_steps.toNat : ℝ) * 1e-6 ≤ (flatState fw cfg p0).2 := by
    rw [flatState]; exact hlow
  have hpos : 0 < (flatState fw cfg p0).2 := by nlinarith
  refine ⟨hstep, ?_, ?_, ?_⟩
  · rw [run_flat_acc]; exact hacc
  · rw [run_flat_acc]; exact hpos
  · rw [run_ratio_eq, if_pos hpos, run_flat_acc, run_dilated_acc]

/-- Concrete instance for C9: `N = 1`, `d = 1`, pattern `[0]`. -/
theorem step_stat_positive_ratio_finite_witness :
    (1 ≤ (1 : ℤ)) ∧
    0 < (run_simulation idTransform ⟨4, 0.05, 1, 1, 1, 0.5, 0.2⟩
      [0]).flat.accumulated_computation :=
  ⟨by norm_num,
    (step_stat_positive_ratio_finite idTransform ⟨4, 0.05, 1, 1, 1, 0.5, 0.2⟩ [0]
      (by norm_num)).2.2.1⟩

/-- Claim C8: if the collaborator preserves pattern length, then both zones'
final patterns, and the input of every collaborator call in either zone,
have the initial pattern's length: pattern length is constant across all
steps and both zones within one run. -/
theorem pattern_length_invariant (fw : Transform) (cfg : SimConfig) (p0 : Pattern)
    (hfw : ∀ (p : Pattern) (d r : ℝ), (fw p d r).length = p.length) :
    (flatState fw cfg p0).1.length = p0.length ∧
    (dilatedState fw cfg p0).1.length = p0.length ∧
    (∀ c ∈ callTrace fw 1 cfg.flat_pr cfg.num_external_steps.toNat p0,
        c.1.length = p0.length) ∧
    (∀ c ∈ dilatedCallTrace fw (1 / (cfg.dilation_factor : ℝ)) cfg.dilated_pr
        cfg.dilation_factor.toNat cfg.num_external_steps.toNat p0,
        c.1.length = p0.length) := by
  refine ⟨?_, ?_, ?_, ?_⟩
  · rw [flatState, zoneLoop_fst, iterate_length fw 1 cfg.flat_pr hfw]
  · rw [dilatedState, dilatedLoop_eq_zoneLoop, zoneLoop_fst,
      iterate_length fw (1 / (cfg.dilation_factor : ℝ)) cfg.dilated_pr hfw]
  · intro c hc
    rw [callTrace_eq_map] at hc
    rcases List.mem_map.1 hc with ⟨i, _, rfl⟩
    exact iterate_length fw 1 cfg.flat_pr hfw i p0
  · intro c hc
    rw [dilatedCallTrace_eq, callTrace_eq_map] at hc
    rcases List.mem_map.1 hc with ⟨i, _, rfl⟩
    exact iterate_length fw (1 / (cfg.dilation_factor : ℝ)) cfg.dilated_pr hfw i p0

/-- Concrete instance for C8: identity collaborator, `L = 1`, `N = 1`. -/
theorem pattern_length_invariant_witness :
    (flatState idTransform ⟨4, 0.05, 1, 1, 1, 0.5, 0.2⟩ [0]).1.length = 1 ∧
    (dilatedState idTransform ⟨4, 0.05, 1, 1, 1, 0.5, 0.2⟩ [0]).1.length = 1 :=
  ⟨(pattern_length_invariant idTransform ⟨4, 0.05, 1, 1, 1, 0.5, 0.2⟩ [0]
      (fun _ _ _ => rfl)).1,
   (pattern_length_invariant idTransform ⟨4, 0.05, 1, 1, 1, 0.5, 0.2⟩ [0]
      (fun _ _ _ => rfl)).2.1⟩

/-- The spec's concrete scenario configuration: pattern length 5, `N = 2`,
`dilation_factor = 3` (transform parameters at their defaults). -/
def scenarioConfig : SimConfig := ⟨4, 0.05, 5, 2, 3, 0.5, 0.2⟩

/-- The spec's concrete scenario pattern `[1, -1, 1, -1, 1]`. -/
def scenarioPattern : Pattern := [1, -1, 1, -1, 1]

theorem scenario_mean_abs : npMeanAbs scenarioPattern = 1 := by
  simp [npMeanAbs, scenarioPattern]
  norm_num

theorem scenario_var : npVar scenarioPattern = 24 / 25 := by
  simp [npVar, npMean, scenarioPattern]
  norm_num

theorem scenario_flat_acc :
    (flatState idTransform scenarioConfig scenarioPattern).2 =
      2 * (1 + Real.sqrt (24 / 25 + 1e-12)) := by
  rw [flatState, zoneLoop_id]
  show 0 + ((scenarioConfig.num_external_steps.toNat : ℕ) : ℝ) *
    stepStat scenarioPattern = _
  simp only [stepStat, scenarioConfig]
  rw [scenario_mean_abs, scenario_var]
  push_cast [Int.toNat_ofNat]
  ring

theorem scenario_dilated_acc :
    (dilatedState idTransform scenarioConfig scenarioPattern).2 =
      6 * (1 + Real.sqrt (24 / 25 + 1e-12)) := by
  rw [dilatedState, dilatedLoop_eq_zoneLoop, zoneLoop_id]
  show 0 + ((scenarioConfig.num_external_steps.toNat *
    scenarioConfig.dilation_factor.toNat : ℕ) : ℝ) * stepStat scenarioPattern = _
  simp only [stepStat, scenarioConfig]
  rw [scenario_mean_abs, scenario_var]
  push_cast [Int.toNat_ofNat]
  ring

/-- Claim C4 counterexample: on the scenario's own input the initial
variance is `24/25 = 0.96`, not `0.0` (the pattern's mean is `0.2`), and
consequently the flat accumulated computation differs from
`2 × (1 + sqrt(1e-12))`. -/
theorem scenario_statistics_counterexample :
    (run_simulation idTransform scenarioConfig scenarioPattern).initial_variance ≠ 0 ∧
    (run_simulation idTransform scenarioConfig
      scenarioPattern).flat.accumulated_computation ≠ 2 * (1 + Real.sqrt 1e-12) := by
  constructor
  · show npVar scenarioPattern ≠ 0
    rw [scenario_var]
    norm_num
  · rw [run_flat_acc, scenario_flat_acc]
    have h : Real.sqrt 1e-12 < Real.sqrt (24 / 25 + 1e-12) :=
      Real.sqrt_lt_sqrt (by norm_num) (by norm_num)
    intro hEq
    linarith

/-- Claim C4 amended: in the scenario (pattern `[1,-1,1,-1,1]`, `N = 2`,
`d = 3`, identity collaborator) the initial mean absolute value is `1.0`,
the initial variance is `0.96 = 24/25`, the flat accumulated computation is
`2 × (1 + sqrt(0.96 + 1e-12))`, the dilated one is `6 ×` the same term, and
the performance ratio is `3.0`. -/
theorem scenario_amended_statistics :
    (run_simulation idTransform scenarioConfig scenarioPattern).initial_mean_abs = 1 ∧
    (run_simulation idTransform scenarioConfig scenarioPattern).initial_variance =
      24 / 25 ∧
    (run_simulation idTransform scenarioConfig
      scenarioPattern).flat.accumulated_computation =
        2 * (1 + Real.sqrt (24 / 25 + 1e-12)) ∧
    (run_simulation idTransform scenarioConfig
      scenarioPattern).dilated.accumulated_computation =
        6 * (1 + Real.sqrt (24 / 25 + 1e-12)) ∧
    (run_simulation idTransform scenarioConfig
      scenarioPattern).performance_ratio_vs_flat = RatioVal.finite 3 := by
  have hs : (0 : ℝ) < 1 + Real.sqrt (24 / 25 + 1e-12) := by positivity
  have hfpos : 0 < (flatState idTransform scenarioConfig scenarioPattern).2 := by
    rw [scenario_flat_acc]
    positivity
  refine ⟨scenario_mean_abs, scenario_var, ?_, ?_, ?_⟩
  · rw [run_flat_acc]
    exact scenario_flat_acc
  · rw [run_dilated_acc]
    exact scenario_dilated_acc
  · rw [run_ratio_eq, if_pos hfpos, scenario_flat_acc, scenario_dilated_acc]
    congr 1
    rw [div_eq_iff (by positivity)]
    ring

/-- Claim C5 counterexample: with the zero-output stub collaborator and
`N = 1` the flat accumulated computation is `sqrt(1e-12) = 1e-6`, not zero:
the structure bonus keeps every step's statistic strictly positive. -/
theorem zero_stub_counterexample :
    (run_simulation zeroStub ⟨4, 0.05, 1, 1, 2, 0.5, 0.2⟩
      [1]).flat.accumulated_computation ≠ 0 := by
  rw [run_flat_acc, flatState, zoneLoop_zeroStub_snd, sqrt_eps_eq]
  show (0 : ℝ) + (((1 : ℤ).toNat : ℕ) : ℝ) * 1e-6 ≠ 0
  norm_num [Int.toNat_ofNat]

/-- Claim C5 amended: with the zero-output stub the flat accumulated
computation equals `N × sqrt(1e-12)`, which is strictly positive for
`N ≥ 1`, so the ratio is not positive infinity but the finite value
`dilation_factor` (as a truncated-to-ℕ cast; it is the configured factor
whenever that factor is non-negative). -/
theorem zero_stub_amended (cfg : SimConfig) (p0 : Pattern)
    (hN : 1 ≤ cfg.num_external_steps) :
    (run_simulation zeroStub cfg p0).flat.accumulated_computation =
      (cfg.num_external_steps.toNat : ℝ) * Real.sqrt 1e-12 ∧
    0 < (run_simulation zeroStub cfg p0).flat.accumulated_computation ∧
    (run_simulation zeroStub cfg p0).performance_ratio_vs_flat =
      RatioVal.finite ((cfg.dilation_factor.toNat : ℝ)) := by
  have hflat : (flatState zeroStub cfg p0).2 =
      (cfg.num_external_steps.toNat : ℝ) * Real.sqrt 1e-12 := by
    rw [flatState, zoneLoop_zeroStub_snd, zero_add]
  have hdil : (dilatedState zeroStub cfg p0).2 =
      ((cfg.num_external_steps.toNat * cfg.dilation_factor.toNat : ℕ) : ℝ) *
        Real.sqrt 1e-12 := by
    rw [dilatedState, dilatedLoop_eq_zoneLoop, zoneLoop_zeroStub_snd, zero_add]
  have hNt : (1 : ℝ) ≤ (cfg.num_external_steps.toNat : ℝ) := by
    have h : 1 ≤ cfg.num_external_steps.toNat := by omega
    exact_mod_cast h
  have hc : (0 : ℝ) < Real.sqrt 1e-12 := by
    rw [sqrt_eps_eq]
    norm_num
  have hfpos : 0 < (flatState zeroStub cfg p0).2 := by
    rw [hflat]
    nlinarith
  refine ⟨by rw [run_flat_acc, hflat], by rw [run_flat_acc]; exact hfpos, ?_⟩
  rw [run_ratio_eq, if_pos hfpos, hflat, hdil]
  congr 1
  have hNne : (cfg.num_external_steps.toNat : ℝ) ≠ 0 := by linarith
  have hcne : Real.sqrt 1e-12 ≠ 0 := ne_of_gt hc
  rw [Nat.cast_mul, div_eq_iff (by positivity)]
  ring

/-- Concrete instance for the amended C5: `N = 2`, `d = 3`, pattern `[1]`. -/
theorem zero_stub_amended_witness :
    (1 ≤ (2 : ℤ)) ∧
    (run_simulation zeroStub ⟨4, 0.05, 1, 2, 3, 0.5, 0.2⟩
      [1]).performance_ratio_vs_flat = RatioVal.finite (((3 : ℤ).toNat : ℝ)) :=
  ⟨by norm_num, (zero_stub_amended ⟨4, 0.05, 1, 2, 3, 0.5, 0.2⟩ [1] (by norm_num)).2.2⟩

/-- Claim C6 counterexample: constructing with `num_external_steps = 0` and
`dilation_factor = -1` does not signal an invalid configuration — `__init__`
performs no validation and succeeds. -/
theorem init_no_validation_counterexample :
    simInit { num_external_steps := 0, dilation_factor := -1 } 0 ≠
      Except.error ConfigError.invalid ∧
    simInit { num_external_steps := 0, dilation_factor := -1 } 0 =
      Except.ok (cfgOf { num_external_steps := 0, dilation_factor := -1 }, 42) := by
  constructor
  · simp [simInit]
  · rfl

/-- Claim C6 amended: construction never fails — any parameters, including
non-positive step counts and dilation factors, are accepted and stored
verbatim — and with a non-positive step count the subsequent run silently
performs zero steps per zone, yielding flat accumulated computation `0` and
ratio positive infinity. -/
theorem init_accepts_and_run_degenerates (p : InitParams) (g : RngState)
    (fw : Transform) (p0 : Pattern) (hN : p.num_external_steps ≤ 0) :
    simInit p g = Except.ok (cfgOf p, p.seed) ∧
    (run_simulation fw (cfgOf p) p0).flat.accumulated_computation = 0 ∧
    (run_simulation fw (cfgOf p) p0).performance_ratio_vs_flat = RatioVal.posInf := by
  have hz : (cfgOf p).num_external_steps.toNat = 0 := Int.toNat_of_nonpos hN
  have hflat : (flatState fw (cfgOf p) p0).2 = 0 := by
    rw [flatState, hz]
    rfl
  refine ⟨rfl, by rw [run_flat_acc]; exact hflat, ?_⟩
  rw [run_ratio_eq, hflat, if_neg (lt_irrefl 0)]

/-- Concrete instance for the amended C6: `num_external_steps = -3`. -/
theorem init_accepts_and_run_degenerates_witness :
    ((-3 : ℤ) ≤ 0) ∧
    (simInit { num_external_steps := -3 } 0 =
      Except.ok (cfgOf { num_external_steps := -3 }, 42) ∧
    (run_simulation idTransform (cfgOf { num_external_steps := -3 })
      [0]).flat.accumulated_computation = 0 ∧
    (run_simulation idTransform (cfgOf { num_external_steps := -3 })
      [0]).performance_ratio_vs_flat = RatioVal.posInf) :=
  ⟨by norm_num,
    init_accepts_and_run_degenerates { num_external_steps := -3 } 0 idTransform [0]
      (by norm_num)⟩

end TimeDilation
